import Mathlib

/-!
Shallow embedding of `src/WrenchDimensionCalculator.py`.

Python floats are modelled as real numbers; the `Decimal` wrench size and its
`float(size)` mirror are both modelled as the same real number.  Python
operations that raise on bad input (indexing an empty list, `max` of an empty
sequence, attribute access on `None`) are modelled with `Option` / `Except`.
-/

/-- Embedding of the frozen dataclass `HexWrench` (source lines 10-24). -/
structure HexWrench where
  size : ℝ
  head_width : ℝ
  head_short_length : ℝ
  size_f : ℝ
  circumference : ℝ
  square : ℝ
  area : ℝ

/-- Embedding of the frozen dataclass `HexWrenchHolderParameters` (source lines 26-44). -/
structure HexWrenchHolderParameters where
  lengthwise_border : ℝ
  lengthwise_inner_spacing : ℝ
  widthwise_border : ℝ
  height : ℝ
  hole_enlarge_factor : ℝ
  hole_enlarge_min : ℝ

/-- Embedding of the frozen dataclass `HoleCoords` (source lines 46-53). -/
structure HoleCoords where
  x : ℝ
  y : ℝ

/-- Embedding of the frozen dataclass `HoleDetails` (source lines 55-66).
`hole_coords` is `None` until the placement phase runs, hence `Option`. -/
structure HoleDetails where
  hex_size : ℝ
  hex_long_diameter : ℝ
  hole_diameter : ℝ
  hole_coords : Option HoleCoords

noncomputable instance : Inhabited HoleCoords := ⟨⟨0, 0⟩⟩

noncomputable instance : Inhabited HoleDetails := ⟨⟨0, 0, 0, none⟩⟩

/-- Embedding of `create_hex_wrench` (source lines 69-86).
`size_f = float(size)` is modelled as the identity on ℝ. -/
noncomputable def create_hex_wrench (size head_width head_short_length : ℝ) : HexWrench :=
  { size := size
    head_width := head_width
    head_short_length := head_short_length
    size_f := size
    circumference := 6 * size
    square := Real.sqrt 2 * size
    area := 3 / 2 * Real.sqrt 3 * size * size }

/-- Embedding of `compute_hex_long_diameter` (source lines 89-91). -/
noncomputable def compute_hex_long_diameter (hex_size : ℝ) : ℝ :=
  2 / Real.sqrt 3 * hex_size

/-- Embedding of `compute_hole_diameter` (source lines 94-96). -/
noncomputable def compute_hole_diameter (hex_long_dia hole_enlarge_factor hole_enlarge_min : ℝ) : ℝ :=
  max (hex_long_dia + hole_enlarge_min) (hex_long_dia * hole_enlarge_factor)

/-- Embedding of `compute_hole_detail` (source lines 99-112): coordinates set to `none`. -/
noncomputable def compute_hole_detail (hex_size hex_long_dia hole_enlarge_factor hole_enlarge_min : ℝ) : HoleDetails :=
  { hex_size := hex_size
    hex_long_diameter := hex_long_dia
    hole_diameter := compute_hole_diameter hex_long_dia hole_enlarge_factor hole_enlarge_min
    hole_coords := none }

/-- The `for half_width in half_widths` loop of `compute_hole_centers`
(source lines 130-133), with the running `pre_center` made explicit. -/
noncomputable def hole_centers_loop (y_center inner_spacing : ℝ) : ℝ → List ℝ → List HoleCoords
  | _, [] => []
  | pre_center, half_width :: rest =>
    let x_center := pre_center + half_width
    ⟨x_center, y_center⟩ :: hole_centers_loop y_center inner_spacing (x_center + half_width + inner_spacing) rest

/-- Embedding of `compute_hole_centers` (source lines 115-134).
`half_widths[0]` raises `IndexError` on an empty list, modelled as `none`. -/
noncomputable def compute_hole_centers (hex_wrench_widths : List ℝ) (inner_spacing lengthwise_border widthwise_border max_short_handle_length : ℝ) : Option (List HoleCoords) :=
  let y_center := widthwise_border + max_short_handle_length
  let half_widths := hex_wrench_widths.map (fun w => w / 2)
  match half_widths.head? with
  | none => none
  | some hw0 => some (hole_centers_loop y_center inner_spacing (lengthwise_border - hw0) half_widths)

/-- Embedding of `compute_holder_length` (source lines 137-139). -/
noncomputable def compute_holder_length (last_hole_x_center hole_dia lengthwise_border : ℝ) : ℝ :=
  last_hole_x_center + hole_dia / 2 + lengthwise_border

/-- Embedding of `compute_holder_width` (source lines 142-144). -/
noncomputable def compute_holder_width (max_handle_short_length max_hex_diameter width_border : ℝ) : ℝ :=
  width_border + max_handle_short_length + max_hex_diameter + width_border

/-- Python `max(list)`: raises `ValueError` on an empty sequence, modelled as `none`. -/
noncomputable def max_list (l : List ℝ) : Option ℝ :=
  match l with
  | [] => none
  | a :: rest => some (rest.foldl max a)

/-- The merge of phase-1 details with phase-2 coordinates (source lines 242-249):
`zip` truncates to the shorter list, as in Python. -/
def merge_details (hole_details : List HoleDetails) (hole_centers : List HoleCoords) : List HoleDetails :=
  List.zipWith (fun hd coord => ⟨hd.hex_size, hd.hex_long_diameter, hd.hole_diameter, some coord⟩) hole_details hole_centers

/-- The `hole_details` list comprehension of `__main__` (source lines 217-224). -/
noncomputable def pipeline_hole_details1 (hex_set : List HexWrench) (p : HexWrenchHolderParameters) : List HoleDetails :=
  hex_set.map (fun hw => compute_hole_detail hw.size (compute_hex_long_diameter hw.size_f) p.hole_enlarge_factor p.hole_enlarge_min)

/-- The `hex_wrench_widths` list comprehension of `__main__` (source lines 226-227). -/
noncomputable def pipeline_hex_wrench_widths (hex_set : List HexWrench) (p : HexWrenchHolderParameters) : List ℝ :=
  (hex_set.zip (pipeline_hole_details1 hex_set p)).map (fun x => max x.2.hole_diameter x.1.head_width)

/-- The runtime faults the `__main__` pipeline can hit, in source order:
`max([])` (ValueError, lines 229 and 231), `half_widths[0]` on an empty list
(IndexError, line 129), `hole_details[-1]` on an empty list (IndexError,
line 253), and `None.x` (AttributeError, line 253). -/
inductive PipelineFault where
  | emptyMax
  | emptyIndex
  | lastHole
  | noneCoords
  deriving DecidableEq

/-- The values `__main__` computes and prints (holes table plus holder length and width). -/
structure PipelineOutput where
  hole_details : List HoleDetails
  holder_length : ℝ
  holder_width : ℝ

/-- Embedding of the `Dimension Computations` section of `__main__`
(source lines 217-261), with each statement in source order and each
fallible access made explicit. -/
noncomputable def run_pipeline (hex_set : List HexWrench) (p : HexWrenchHolderParameters) : Except PipelineFault PipelineOutput :=
  let hole_details1 := pipeline_hole_details1 hex_set p
  match max_list (hex_set.map HexWrench.head_short_length) with
  | none => .error .emptyMax
  | some max_handle_short_length =>
    match max_list (hole_details1.map HoleDetails.hole_diameter) with
    | none => .error .emptyMax
    | some max_hole_diameter =>
      match compute_hole_centers (pipeline_hex_wrench_widths hex_set p) p.lengthwise_inner_spacing p.lengthwise_border p.widthwise_border max_handle_short_length with
      | none => .error .emptyIndex
      | some hole_centers =>
        let hole_details := merge_details hole_details1 hole_centers
        match hole_details.getLast? with
        | none => .error .lastHole
        | some last =>
          match last.hole_coords with
          | none => .error .noneCoords
          | some c =>
            .ok { hole_details := hole_details
                  holder_length := compute_holder_length c.x last.hex_long_diameter p.lengthwise_border
                  holder_width := compute_holder_width max_handle_short_length max_hole_diameter p.widthwise_border }

/-- The hardcoded eight-wrench set of `__main__` (source lines 193-202). -/
noncomputable def hex_set : List HexWrench :=
  [ create_hex_wrench 2 24 36,
    create_hex_wrench 2.5 24 36,
    create_hex_wrench 3 24 36,
    create_hex_wrench 4 24 36,
    create_hex_wrench 5 24 36,
    create_hex_wrench 6 24 36,
    create_hex_wrench 8 24 36,
    create_hex_wrench 10 31 46 ]

/-- The hardcoded holder parameters of `__main__` (source lines 204-211). -/
noncomputable def hex_wrench_holder_parameters : HexWrenchHolderParameters :=
  { lengthwise_border := 5
    lengthwise_inner_spacing := 2.5
    widthwise_border := 5
    height := 38
    hole_enlarge_factor := 1.2
    hole_enlarge_min := 1 }

lemma hole_centers_loop_length (y s : ℝ) (hws : List ℝ) (pre : ℝ) :
    (hole_centers_loop y s pre hws).length = hws.length := by
  induction hws generalizing pre with
  | nil => rfl
  | cons a rest ih => simp [hole_centers_loop, ih]

lemma hole_centers_loop_y (y s : ℝ) (hws : List ℝ) (pre : ℝ) :
    ∀ c ∈ hole_centers_loop y s pre hws, c.y = y := by
  induction hws generalizing pre with
  | nil => simp [hole_centers_loop]
  | cons a rest ih =>
    intro c hc
    simp only [hole_centers_loop, List.mem_cons] at hc
    rcases hc with rfl | hc
    · rfl
    · exact ih _ c hc

lemma hole_centers_loop_head (y s : ℝ) (a : ℝ) (rest : List ℝ) (pre : ℝ) :
    (hole_centers_loop y s pre (a :: rest)).head? = some ⟨pre + a, y⟩ := by
  simp [hole_centers_loop]

lemma hole_centers_loop_adj (y s : ℝ) (hws : List ℝ) (pre : ℝ) (i : ℕ)
    (hi : i + 1 < hws.length)
    (h1 : i + 1 < (hole_centers_loop y s pre hws).length)
    (h0 : i < (hole_centers_loop y s pre hws).length)
    (hi0 : i < hws.length) :
    ((hole_centers_loop y s pre hws).get ⟨i + 1, h1⟩).x
      - ((hole_centers_loop y s pre hws).get ⟨i, h0⟩).x
      = hws.get ⟨i, hi0⟩ + s + hws.get ⟨i + 1, hi⟩ := by
  induction hws generalizing pre i with
  | nil => simp at hi
  | cons a rest ih =>
    cases i with
    | zero =>
      cases rest with
      | nil => simp at hi
      | cons b rest2 =>
        simp [hole_centers_loop]
        ring
    | succ k =>
      have hk : k + 1 < rest.length := by
        simpa using hi
      simp only [hole_centers_loop, List.get_cons_succ]
      exact ih (pre + a + a + s) k hk _ _ _

lemma compute_hole_centers_cons (w : ℝ) (ws : List ℝ) (s lb wb msl : ℝ) :
    compute_hole_centers (w :: ws) s lb wb msl
      = some (hole_centers_loop (wb + msl) s (lb - w / 2) ((w :: ws).map (fun x => x / 2))) := rfl

lemma compute_hole_centers_length (ws : List ℝ) (s lb wb msl : ℝ) (cs : List HoleCoords)
    (h : compute_hole_centers ws s lb wb msl = some cs) :
    cs.length = ws.length := by
  cases ws with
  | nil => simp [compute_hole_centers] at h
  | cons w rest =>
    rw [compute_hole_centers_cons] at h
    injection h with h
    subst h
    simp [hole_centers_loop_length]

lemma compute_hole_centers_y (ws : List ℝ) (s lb wb msl : ℝ) (cs : List HoleCoords)
    (h : compute_hole_centers ws s lb wb msl = some cs) :
    ∀ c ∈ cs, c.y = wb + msl := by
  cases ws with
  | nil => simp [compute_hole_centers] at h
  | cons w rest =>
    rw [compute_hole_centers_cons] at h
    injection h with h
    subst h
    exact hole_centers_loop_y _ _ _ _

lemma merge_details_length (l1 : List HoleDetails) (l2 : List HoleCoords) :
    (merge_details l1 l2).length = min l1.length l2.length := by
  simp [merge_details]

lemma merge_details_getElem (l1 : List HoleDetails) (l2 : List HoleCoords) (i : ℕ)
    (h : i < (merge_details l1 l2).length) (h1 : i < l1.length) (h2 : i < l2.length) :
    (merge_details l1 l2).get ⟨i, h⟩
      = ⟨(l1.get ⟨i, h1⟩).hex_size, (l1.get ⟨i, h1⟩).hex_long_diameter,
         (l1.get ⟨i, h1⟩).hole_diameter, some (l2.get ⟨i, h2⟩)⟩ := by
  simp [merge_details, List.get_eq_getElem, List.getElem_zipWith]

lemma merge_details_coords (l1 : List HoleDetails) (l2 : List HoleCoords) :
    ∀ hd ∈ merge_details l1 l2, ∃ c ∈ l2, hd.hole_coords = some c := by
  induction l1 generalizing l2 with
  | nil => simp [merge_details]
  | cons a rest ih =>
    cases l2 with
    | nil => simp [merge_details]
    | cons c cs =>
      intro hd hhd
      simp only [merge_details, List.zipWith_cons_cons, List.mem_cons] at hhd
      rcases hhd with rfl | hhd
      · exact ⟨c, List.mem_cons_self c cs, rfl⟩
      · obtain ⟨c0, hc0, hco⟩ := ih cs hd hhd
        exact ⟨c0, List.mem_cons_of_mem c hc0, hco⟩

lemma merge_details_map_hole_diameter (l1 : List HoleDetails) (l2 : List HoleCoords)
    (h : l1.length ≤ l2.length) :
    (merge_details l1 l2).map HoleDetails.hole_diameter = l1.map HoleDetails.hole_diameter := by
  induction l1 generalizing l2 with
  | nil => simp [merge_details]
  | cons a rest ih =>
    cases l2 with
    | nil => simp at h
    | cons c cs =>
      simp only [merge_details, List.zipWith_cons_cons, List.map_cons] at ih ⊢
      refine congrArg (fun l => a.hole_diameter :: l) ?_
      exact ih cs (by simpa using h)

lemma run_pipeline_ok {hs : List HexWrench} {p : HexWrenchHolderParameters} {out : PipelineOutput}
    (h : run_pipeline hs p = .ok out) :
    ∃ msl mhd centers last c,
      max_list (hs.map HexWrench.head_short_length) = some msl ∧
      max_list ((pipeline_hole_details1 hs p).map HoleDetails.hole_diameter) = some mhd ∧
      compute_hole_centers (pipeline_hex_wrench_widths hs p) p.lengthwise_inner_spacing
        p.lengthwise_border p.widthwise_border msl = some centers ∧
      out.hole_details = merge_details (pipeline_hole_details1 hs p) centers ∧
      (merge_details (pipeline_hole_details1 hs p) centers).getLast? = some last ∧
      last.hole_coords = some c ∧
      out.holder_length = compute_holder_length c.x last.hex_long_diameter p.lengthwise_border ∧
      out.holder_width = compute_holder_width msl mhd p.widthwise_border := by
  simp only [run_pipeline] at h
  split at h
  · exact absurd h (by simp)
  rename_i msl h1
  split at h
  · exact absurd h (by simp)
  rename_i mhd h2
  split at h
  · exact absurd h (by simp)
  rename_i centers h3
  split at h
  · exact absurd h (by simp)
  rename_i last h4
  split at h
  · exact absurd h (by simp)
  rename_i c h5
  injection h with h
  subst h
  exact ⟨msl, mhd, centers, last, c, h1, h2, h3, rfl, h4, h5, rfl, rfl⟩

lemma pipeline_hole_details1_length (hs : List HexWrench) (p : HexWrenchHolderParameters) :
    (pipeline_hole_details1 hs p).length = hs.length := by
  simp [pipeline_hole_details1]

lemma pipeline_hex_wrench_widths_length (hs : List HexWrench) (p : HexWrenchHolderParameters) :
    (pipeline_hex_wrench_widths hs p).length = hs.length := by
  simp [pipeline_hex_wrench_widths, pipeline_hole_details1]

lemma merge_details_getElem_eq (l1 : List HoleDetails) (l2 : List HoleCoords) (i : ℕ)
    (h : i < (merge_details l1 l2).length) (h1 : i < l1.length) (h2 : i < l2.length) :
    (merge_details l1 l2)[i]
      = ⟨l1[i].hex_size, l1[i].hex_long_diameter, l1[i].hole_diameter, some l2[i]⟩ := by
  simp [merge_details, List.getElem_zipWith]

/-- C5: `compute_hole_diameter` returns `max(long_dia + enlarge_min, long_dia * enlarge_factor)`,
and for every long diameter `d`, enlarge factor `f ≥ 1` and enlarge minimum `m ≥ 0`
the result is at least `d`. -/
theorem compute_hole_diameter_spec (long_dia f m : ℝ) :
    compute_hole_diameter long_dia f m = max (long_dia + m) (long_dia * f) ∧
    (1 ≤ f → 0 ≤ m → long_dia ≤ compute_hole_diameter long_dia f m) := by
  refine ⟨rfl, fun _ hm => ?_⟩
  calc long_dia ≤ long_dia + m := le_add_of_nonneg_right hm
  _ ≤ compute_hole_diameter long_dia f m := le_max_left _ _

/-- Witness for C5 at `long_dia = 1`, `f = 1`, `m = 0`. -/
theorem compute_hole_diameter_spec_witness :
    compute_hole_diameter 1 1 0 = max ((1:ℝ) + 0) (1 * 1) ∧ (1:ℝ) ≤ compute_hole_diameter 1 1 0 :=
  ⟨(compute_hole_diameter_spec 1 1 0).1, (compute_hole_diameter_spec 1 1 0).2 le_rfl le_rfl⟩

/-- C8: `create_hex_wrench` is total (defined for every input, no error path) and its
derived fields satisfy `size_f = float(size)` (the identity in the real model),
`circumference = 6 * size_f`, `square = sqrt 2 * size_f`, and
`area = (3/2) * sqrt 3 * size_f ^ 2`. -/
theorem create_hex_wrench_derived_fields (size hw hsl : ℝ) :
    (create_hex_wrench size hw hsl).size_f = size ∧
    (create_hex_wrench size hw hsl).circumference = 6 * (create_hex_wrench size hw hsl).size_f ∧
    (create_hex_wrench size hw hsl).square
      = Real.sqrt 2 * (create_hex_wrench size hw hsl).size_f ∧
    (create_hex_wrench size hw hsl).area
      = 3 / 2 * Real.sqrt 3 * (create_hex_wrench size hw hsl).size_f ^ 2 := by
  refine ⟨rfl, rfl, rfl, ?_⟩
  show 3 / 2 * Real.sqrt 3 * size * size = 3 / 2 * Real.sqrt 3 * size ^ 2
  ring

/-- C9: `compute_hole_diameter` is monotone non-decreasing in the enlarge factor with the
enlarge minimum fixed, and in the enlarge minimum with the enlarge factor fixed, for a
non-negative long diameter. -/
theorem compute_hole_diameter_monotone (d f1 f2 m1 m2 : ℝ) (hd : 0 ≤ d) :
    (f1 ≤ f2 → compute_hole_diameter d f1 m1 ≤ compute_hole_diameter d f2 m1) ∧
    (m1 ≤ m2 → compute_hole_diameter d f1 m1 ≤ compute_hole_diameter d f1 m2) := by
  constructor
  · intro hf
    exact max_le_max le_rfl (mul_le_mul_of_nonneg_left hf hd)
  · intro hm
    exact max_le_max (add_le_add_left hm d) le_rfl

/-- Witness for C9 at `d = 1`, factors `1 ≤ 2`, minima `0 ≤ 1`. -/
theorem compute_hole_diameter_monotone_witness :
    compute_hole_diameter 1 1 0 ≤ compute_hole_diameter 1 2 0 ∧
    compute_hole_diameter 1 1 0 ≤ compute_hole_diameter 1 1 1 :=
  ⟨(compute_hole_diameter_monotone 1 1 2 0 1 zero_le_one).1 one_le_two,
   (compute_hole_diameter_monotone 1 1 2 0 1 zero_le_one).2 zero_le_one⟩

/-- C1 amended: the first hole placed by `compute_hole_centers` has its CENTER at
`lengthwise_border` (`x_center[0] == lengthwise_border` exactly); its left edge
therefore sits at `lengthwise_border - half_width[0]`. -/
theorem first_hole_center_at_border (ws : List ℝ) (s lb wb msl : ℝ)
    (cs : List HoleCoords) (c0 : HoleCoords)
    (h : compute_hole_centers ws s lb wb msl = some cs)
    (h0 : cs.head? = some c0) :
    c0.x = lb := by
  cases ws with
  | nil => simp [compute_hole_centers] at h
  | cons w rest =>
    rw [compute_hole_centers_cons] at h
    injection h with h
    subst h
    rw [List.map_cons, hole_centers_loop_head] at h0
    injection h0 with h0
    subst h0
    show lb - w / 2 + w / 2 = lb
    ring

noncomputable def c1_centers : List HoleCoords :=
  (compute_hole_centers [24] 2.5 5 5 36).getD []

noncomputable def c1_first : HoleCoords := c1_centers.headI

/-- C1 counterexample: with the single hex-wrench width 24 of the default first wrench and
the default parameters, the first hole's left edge `x_center[0] - half_width[0]` is
`-7`, not the lengthwise border `5`: the claimed equality fails. -/
theorem first_hole_left_edge_not_at_border :
    compute_hole_centers [24] 2.5 5 5 36 = some c1_centers ∧
    c1_centers.head? = some c1_first ∧
    c1_first.x - 24 / 2 ≠ 5 := by
  refine ⟨rfl, rfl, ?_⟩
  show (5:ℝ) - 24 / 2 + 24 / 2 - 24 / 2 ≠ 5
  norm_num

/-- Witness for the amended C1 at the concrete counterexample input. -/
theorem first_hole_center_at_border_witness : c1_first.x = 5 :=
  first_hole_center_at_border [24] 2.5 5 5 36 c1_centers c1_first rfl rfl

/-- C2: for any run of `compute_hole_centers` and any adjacent pair of holes,
`x_center[i+1] - x_center[i] == half_width[i] + inner_spacing + half_width[i+1]` exactly. -/
theorem adjacent_hole_spacing (ws : List ℝ) (s lb wb msl : ℝ) (cs : List HoleCoords)
    (h : compute_hole_centers ws s lb wb msl = some cs) (i : ℕ)
    (hi : i + 1 < ws.length) (hi0 : i < ws.length)
    (h1 : i + 1 < cs.length) (h0 : i < cs.length) :
    (cs.get ⟨i + 1, h1⟩).x - (cs.get ⟨i, h0⟩).x
      = ws.get ⟨i, hi0⟩ / 2 + s + ws.get ⟨i + 1, hi⟩ / 2 := by
  cases ws with
  | nil => simp [compute_hole_centers] at h
  | cons w rest =>
    rw [compute_hole_centers_cons] at h
    injection h with h
    subst h
    rw [hole_centers_loop_adj (wb + msl) s ((w :: rest).map (fun x => x / 2)) (lb - w / 2) i
      (by simpa using hi) h1 h0 (by simpa using hi0)]
    simp only [List.get_eq_getElem, List.map_cons]
    cases i with
    | zero => simp
    | succ k => simp [List.getElem_cons_succ, List.getElem_map]

noncomputable def c2_centers : List HoleCoords :=
  (compute_hole_centers [10, 20, 30] 2.5 5 5 36).getD []

/-- Witness for C2 at widths `[10, 20, 30]`, inner spacing `2.5`, adjacent pair `i = 0`. -/
theorem adjacent_hole_spacing_witness :
    (c2_centers.get ⟨1, by decide⟩).x - (c2_centers.get ⟨0, by decide⟩).x
      = ([10, 20, 30] : List ℝ).get ⟨0, by decide⟩ / 2 + 2.5
        + ([10, 20, 30] : List ℝ).get ⟨1, by decide⟩ / 2 :=
  adjacent_hole_spacing [10, 20, 30] 2.5 5 5 36 c2_centers rfl 0
    (by decide) (by decide) (by decide) (by decide)

lemma pipeline_merged_getLast {hs : List HexWrench} {p : HexWrenchHolderParameters}
    {centers : List HoleCoords} {last : HoleDetails} {hw_last : HexWrench}
    (hclen : centers.length = hs.length)
    (h4 : (merge_details (pipeline_hole_details1 hs p) centers).getLast? = some last)
    (hhw : hs.getLast? = some hw_last) :
    last.hex_long_diameter = compute_hex_long_diameter hw_last.size_f := by
  have hd1 : (pipeline_hole_details1 hs p).length = hs.length := pipeline_hole_details1_length hs p
  have hmlen : (merge_details (pipeline_hole_details1 hs p) centers).length = hs.length := by
    rw [merge_details_length, hd1, hclen, min_self]
  have hne : merge_details (pipeline_hole_details1 hs p) centers ≠ [] := by
    intro he
    rw [he] at h4
    simp at h4
  have hne2 : hs ≠ [] := by
    intro he
    rw [he] at hhw
    simp at hhw
  rw [List.getLast?_eq_getLast_of_ne_nil hne] at h4
  injection h4 with h4
  rw [List.getLast?_eq_getLast_of_ne_nil hne2] at hhw
  injection hhw with hhw
  subst h4
  subst hhw
  rw [List.getLast_eq_getElem, List.getLast_eq_getElem]
  have hpos : 0 < hs.length := by
    cases hs with
    | nil => exact absurd rfl hne2
    | cons a l => simp
  have hib : hs.length - 1 < hs.length := Nat.sub_lt hpos Nat.one_pos
  have hib1 : hs.length - 1 < (pipeline_hole_details1 hs p).length := by rw [hd1]; exact hib
  have hib2 : hs.length - 1 < centers.length := by rw [hclen]; exact hib
  have hibm : hs.length - 1 < (merge_details (pipeline_hole_details1 hs p) centers).length := by
    rw [hmlen]; exact hib
  simp only [hmlen]
  rw [merge_details_getElem_eq (pipeline_hole_details1 hs p) centers (hs.length - 1) hibm hib1 hib2]
  show (pipeline_hole_details1 hs p)[hs.length - 1].hex_long_diameter
    = compute_hex_long_diameter hs[hs.length - 1].size_f
  simp [pipeline_hole_details1, List.getElem_map, compute_hole_detail]

/-- C3: the holder length printed by the pipeline is the LAST hole's x-center plus half of
that hole's raw `hex_long_diameter` (the corner-to-corner diameter of the last wrench, not
its enlarged `hole_diameter`) plus the lengthwise border. -/
theorem holder_length_from_raw_long_diameter
    (hs : List HexWrench) (p : HexWrenchHolderParameters) (out : PipelineOutput)
    (last : HoleDetails) (c : HoleCoords) (hw_last : HexWrench)
    (h : run_pipeline hs p = .ok out)
    (hlast : out.hole_details.getLast? = some last)
    (hc : last.hole_coords = some c)
    (hhw : hs.getLast? = some hw_last) :
    out.holder_length = c.x + last.hex_long_diameter / 2 + p.lengthwise_border ∧
    last.hex_long_diameter = compute_hex_long_diameter hw_last.size_f := by
  obtain ⟨msl, mhd, centers, last0, c0, h1, h2, h3, hmerge, h4, h5, hlen, hwid⟩ := run_pipeline_ok h
  rw [hmerge] at hlast
  rw [h4] at hlast
  injection hlast with e
  subst e
  rw [h5] at hc
  injection hc with e2
  subst e2
  have hclen : centers.length = hs.length := by
    rw [compute_hole_centers_length _ _ _ _ _ _ h3, pipeline_hex_wrench_widths_length]
  exact ⟨hlen, pipeline_merged_getLast hclen h4 hhw⟩

/-- C4: the holder width printed by the pipeline equals twice the widthwise border plus the
maximum `head_short_length` over all wrenches plus the maximum enlarged `hole_diameter`
over all holes. -/
theorem holder_width_formula
    (hs : List HexWrench) (p : HexWrenchHolderParameters) (out : PipelineOutput)
    (msl mhd : ℝ)
    (h : run_pipeline hs p = .ok out)
    (hmsl : max_list (hs.map HexWrench.head_short_length) = some msl)
    (hmhd : max_list (out.hole_details.map HoleDetails.hole_diameter) = some mhd) :
    out.holder_width = 2 * p.widthwise_border + msl + mhd := by
  obtain ⟨msl0, mhd0, centers, last0, c0, h1, h2, h3, hmerge, h4, h5, hlen, hwid⟩ := run_pipeline_ok h
  rw [h1] at hmsl
  injection hmsl with e1
  subst e1
  have hclen : centers.length = hs.length := by
    rw [compute_hole_centers_length _ _ _ _ _ _ h3, pipeline_hex_wrench_widths_length]
  have hmapeq : (merge_details (pipeline_hole_details1 hs p) centers).map HoleDetails.hole_diameter
      = (pipeline_hole_details1 hs p).map HoleDetails.hole_diameter :=
    merge_details_map_hole_diameter _ _
      (le_of_eq (by rw [pipeline_hole_details1_length, ← hclen]))
  rw [hmerge, hmapeq, h2] at hmhd
  injection hmhd with e2
  subst e2
  rw [hwid]
  show p.widthwise_border + msl0 + mhd0 + p.widthwise_border
    = 2 * p.widthwise_border + msl0 + mhd0
  ring

/-- C6: every hole placed in a pipeline run has the same y coordinate, equal to
`widthwise_border + max(head_short_length over all wrenches)`. -/
theorem all_y_centers_equal
    (hs : List HexWrench) (p : HexWrenchHolderParameters) (out : PipelineOutput) (m : ℝ)
    (h : run_pipeline hs p = .ok out)
    (hm : max_list (hs.map HexWrench.head_short_length) = some m) :
    ∀ hd ∈ out.hole_details, ∀ c, hd.hole_coords = some c →
      c.y = p.widthwise_border + m := by
  obtain ⟨msl, mhd, centers, last0, c1, h1, h2, h3, hmerge, h4, h5, hlen, hwid⟩ := run_pipeline_ok h
  rw [h1] at hm
  injection hm with e
  subst e
  intro hd hhd c hc
  rw [hmerge] at hhd
  obtain ⟨c0, hc0, hco⟩ := merge_details_coords _ _ hd hhd
  rw [hco] at hc
  injection hc with e2
  subst e2
  exact compute_hole_centers_y _ _ _ _ _ _ h3 _ hc0

/-- C10: a successful pipeline run returns exactly one hole detail per input wrench, and
every one of them carries populated (non-null) coordinates, so the report branch that
prints None coordinates is unreachable. -/
theorem merged_details_all_coords
    (hs : List HexWrench) (p : HexWrenchHolderParameters) (out : PipelineOutput)
    (h : run_pipeline hs p = .ok out) :
    out.hole_details.length = hs.length ∧
    ∀ hd ∈ out.hole_details, hd.hole_coords.isSome := by
  obtain ⟨msl, mhd, centers, last0, c0, h1, h2, h3, hmerge, h4, h5, hlen, hwid⟩ := run_pipeline_ok h
  have hclen : centers.length = hs.length := by
    rw [compute_hole_centers_length _ _ _ _ _ _ h3, pipeline_hex_wrench_widths_length]
  constructor
  · rw [hmerge, merge_details_length, pipeline_hole_details1_length, hclen, min_self]
  · intro hd hhd
    rw [hmerge] at hhd
    obtain ⟨c1, hc1, hco⟩ := merge_details_coords _ _ hd hhd
    rw [hco]
    rfl

/-- C7 amended: on an empty wrench list the pipeline's first fault is the ValueError from
`max()` over the empty `head_short_length` sequence (before `compute_hole_centers` and
long before the last-hole access in the holder-length step); the two steps before it,
the per-wrench hole details and the hex-wrench widths, complete without error. -/
theorem empty_wrench_set_faults_at_max (p : HexWrenchHolderParameters) :
    pipeline_hole_details1 [] p = [] ∧
    pipeline_hex_wrench_widths [] p = [] ∧
    run_pipeline [] p = .error PipelineFault.emptyMax :=
  ⟨rfl, rfl, rfl⟩

/-- C7 counterexample: on the empty wrench list with the default parameters the pipeline
faults with the empty-max ValueError, not at the last-hole access. -/
theorem empty_wrench_set_fault_not_at_last_hole :
    run_pipeline [] hex_wrench_holder_parameters = .error PipelineFault.emptyMax ∧
    PipelineFault.emptyMax ≠ PipelineFault.lastHole :=
  ⟨rfl, by decide⟩

/-- The pipeline output on the hardcoded `__main__` configuration. -/
noncomputable def main_out : PipelineOutput :=
  match run_pipeline hex_set hex_wrench_holder_parameters with
  | .ok out => out
  | .error _ => ⟨[], 0, 0⟩

noncomputable def main_msl : ℝ :=
  (max_list (hex_set.map HexWrench.head_short_length)).getD 0

noncomputable def main_mhd : ℝ :=
  (max_list (main_out.hole_details.map HoleDetails.hole_diameter)).getD 0

noncomputable def main_last : HoleDetails :=
  main_out.hole_details.getLast?.getD default

noncomputable def main_last_coords : HoleCoords :=
  main_last.hole_coords.getD default

noncomputable def main_hw_last : HexWrench :=
  hex_set.getLast?.getD (create_hex_wrench 0 0 0)

noncomputable def main_first : HoleDetails :=
  main_out.hole_details.headI

noncomputable def main_first_coords : HoleCoords :=
  main_first.hole_coords.getD default

lemma main_first_mem : main_first ∈ main_out.hole_details := by
  rw [show main_out.hole_details = main_first :: main_out.hole_details.tail from rfl]
  exact List.mem_cons_self _ _

/-- Witness for C3 on the hardcoded eight-wrench `__main__` run. -/
theorem holder_length_from_raw_long_diameter_witness :
    main_out.holder_length
      = main_last_coords.x + main_last.hex_long_diameter / 2
        + hex_wrench_holder_parameters.lengthwise_border ∧
    main_last.hex_long_diameter = compute_hex_long_diameter main_hw_last.size_f :=
  holder_length_from_raw_long_diameter hex_set hex_wrench_holder_parameters main_out
    main_last main_last_coords main_hw_last rfl rfl rfl rfl

/-- Witness for C4 on the hardcoded eight-wrench `__main__` run. -/
theorem holder_width_formula_witness :
    main_out.holder_width
      = 2 * hex_wrench_holder_parameters.widthwise_border + main_msl + main_mhd :=
  holder_width_formula hex_set hex_wrench_holder_parameters main_out main_msl main_mhd
    rfl rfl rfl

/-- Witness for C6 on the hardcoded eight-wrench `__main__` run, at the first hole. -/
theorem all_y_centers_equal_witness :
    main_first_coords.y = hex_wrench_holder_parameters.widthwise_border + main_msl :=
  all_y_centers_equal hex_set hex_wrench_holder_parameters main_out main_msl rfl rfl
    main_first main_first_mem main_first_coords rfl

/-- Witness for C10 on the hardcoded eight-wrench `__main__` run. -/
theorem merged_details_all_coords_witness :
    main_out.hole_details.length = hex_set.length ∧ main_first.hole_coords.isSome :=
  ⟨(merged_details_all_coords hex_set hex_wrench_holder_parameters main_out rfl).1,
   (merged_details_all_coords hex_set hex_wrench_holder_parameters main_out rfl).2
     main_first main_first_mem⟩
